import Mathlib

/-!
Verification development for the PrismAI conversational client
(src/frontend/src/App.jsx, primary variant).

The file embeds, as executable Lean definitions translated from the source:
  * a model of JSON values as produced by `res.json()`;
  * the JavaScript evaluation helpers that the normalizer relies on
    (truthiness, property access with its TypeError on null, template
    string coercion, `||` defaulting, `Array.prototype.join`,
    `JSON.stringify`);
  * the response normalizer inside `handleSubmit` (lines 76-210);
  * the thinking-step catalog `simulateThinkingSteps` (lines 20-33);
  * the submit state machine of `handleSubmit` (lines 43-230), and a
    suspension-ordered event trace of the same code path.

Numbers are modelled as integers (the normalizer only uses numbers for
truthiness and string coercion); wall-clock timestamps are omitted from
the message model (they are opaque to every property considered here).
-/

/-- JSON values as parsed by `res.json()`.  Objects are association lists
with keys in insertion order; parsed JSON has no duplicate keys. -/
inductive Json where
  | null : Json
  | bool (b : Bool) : Json
  | num (n : Int) : Json
  | str (s : String) : Json
  | arr (elems : List Json) : Json
  | obj (fields : List (String × Json)) : Json

/-- JavaScript truthiness of a JSON value. -/
def Json.truthy : Json → Bool
  | .null => false
  | .bool b => b
  | .num n => n != 0
  | .str s => s != ""
  | .arr _ => true
  | .obj _ => true

/-- Truthiness of a possibly-undefined value (`undefined`, i.e. `none`,
is falsy). -/
def truthyO : Option Json → Bool
  | none => false
  | some j => j.truthy

/-- Whether the value is JSON null. -/
def Json.isNull : Json → Bool
  | .null => true
  | _ => false

/-- `typeof v === 'object'`: true for objects, arrays, and null. -/
def Json.isObjType : Json → Bool
  | .null => true
  | .arr _ => true
  | .obj _ => true
  | _ => false

/-- First binding of a key in an association list. -/
def lookupField : List (String × Json) → String → Option Json
  | [], _ => none
  | (k, v) :: rest, key => if k = key then some v else lookupField rest key

/-- Pure property lookup `base[key]`: a field of an object, `undefined`
(`none`) on every other base.  (The TypeError thrown when the base is
null is modelled separately by `exGet`.) -/
def Json.field : Json → String → Option Json
  | .obj fs, key => lookupField fs key
  | _, _ => none

/-- JS property read `base.key`: throws a TypeError when the base is
null, otherwise yields the field value or `undefined`. -/
def exGet (base : Json) (key : String) : Except String (Option Json) :=
  match base with
  | .null => .error ("TypeError: Cannot read properties of null (reading '" ++ key ++ "')")
  | b => .ok (b.field key)

mutual
/-- JS string coercion `String(v)`, as used by template interpolation,
`+=` concatenation and object key conversion. -/
def Json.toJsString : Json → String
  | .null => "null"
  | .bool b => cond b "true" "false"
  | .num n => toString n
  | .str s => s
  | .arr xs => arrCommaJoin xs
  | .obj _ => "[object Object]"

/-- `Array.prototype.toString`: elements joined by commas, null elements
rendered as the empty string. -/
def arrCommaJoin : List Json → String
  | [] => ""
  | [Json.null] => ""
  | [x] => Json.toJsString x
  | Json.null :: rest => "," ++ arrCommaJoin rest
  | x :: rest => Json.toJsString x ++ "," ++ arrCommaJoin rest
end

/-- `Array.prototype.join('\n')`: null elements render as the empty
string, every other element through `String(v)`. -/
def joinNl : List Json → String
  | [] => ""
  | [Json.null] => ""
  | [x] => Json.toJsString x
  | Json.null :: rest => "\n" ++ joinNl rest
  | x :: rest => Json.toJsString x ++ "\n" ++ joinNl rest

/-- `a || b` on JS values: the first operand when truthy, else the
second. -/
def jsOr (a b : Json) : Json := if a.truthy then a else b

/-- `v || d` where `v` may be `undefined` and `d` is a JS value. -/
def jsOrO (v : Option Json) (d : Json) : Json :=
  match v with
  | some j => if j.truthy then j else d
  | none => d

/-- The first truthy value of a `||` chain, if any. -/
def firstTruthy : List (Option Json) → Option Json
  | [] => none
  | v :: rest => if truthyO v then v else firstTruthy rest

/-- Template interpolation of `v || 'd'`: the string coercion of `v`
when truthy, else the literal default `d`. -/
def interpOr (v : Option Json) (d : String) : String :=
  match v with
  | some j => if j.truthy then j.toJsString else d
  | none => d

/-- Hexadecimal digit (lower case), for `\uXXXX` escapes. -/
def hexDigit (n : Nat) : Char :=
  if n < 10 then Char.ofNat (48 + n) else Char.ofNat (87 + n)

/-- Four-digit hexadecimal rendering of a code point below 0x10000. -/
def hex4 (n : Nat) : String :=
  String.mk [hexDigit (n / 4096 % 16), hexDigit (n / 256 % 16), hexDigit (n / 16 % 16), hexDigit (n % 16)]

/-- JSON string escaping of one character, as in `JSON.stringify`. -/
def escapeChar (c : Char) : String :=
  if c = '"' then "\\\""
  else if c = '\\' then "\\\\"
  else if c = '\n' then "\\n"
  else if c = '\r' then "\\r"
  else if c = '\t' then "\\t"
  else if c = '\x08' then "\\b"
  else if c = '\x0c' then "\\f"
  else if c.toNat < 32 then "\\u" ++ hex4 c.toNat
  else String.mk [c]

/-- A JSON-quoted string literal. -/
def quoteStr (s : String) : String :=
  "\"" ++ String.join (s.toList.map escapeChar) ++ "\""

/-- Indentation produced by `JSON.stringify(_, null, 2)` at a nesting
level: two spaces per level. -/
def indentStr (lvl : Nat) : String := String.mk (List.replicate (2 * lvl) ' ')

mutual
/-- `JSON.stringify(v, null, 2)` at nesting level `lvl`. -/
def stringifyAt (lvl : Nat) : Json → String
  | .null => "null"
  | .bool b => cond b "true" "false"
  | .num n => toString n
  | .str s => quoteStr s
  | .arr [] => "[]"
  | .arr xs => "[\n" ++ stringifyItems lvl xs ++ "\n" ++ indentStr lvl ++ "]"
  | .obj [] => "\x7b\x7d"
  | .obj fs => "\x7b\n" ++ stringifyFields lvl fs ++ "\n" ++ indentStr lvl ++ "\x7d"

/-- Pretty-printed array items, one per line, comma separated. -/
def stringifyItems (lvl : Nat) : List Json → String
  | [] => ""
  | [x] => indentStr (lvl + 1) ++ stringifyAt (lvl + 1) x
  | x :: rest => indentStr (lvl + 1) ++ stringifyAt (lvl + 1) x ++ ",\n" ++ stringifyItems lvl rest

/-- Pretty-printed object fields, one per line, comma separated. -/
def stringifyFields (lvl : Nat) : List (String × Json) → String
  | [] => ""
  | [(k, v)] => indentStr (lvl + 1) ++ quoteStr k ++ ": " ++ stringifyAt (lvl + 1) v
  | (k, v) :: rest =>
      indentStr (lvl + 1) ++ quoteStr k ++ ": " ++ stringifyAt (lvl + 1) v ++ ",\n" ++ stringifyFields lvl rest
end

/-- `JSON.stringify(data, null, 2)`: the pretty-printed serialization
used by the raw fallback variant (App.jsx line 208). -/
def prettyPrint (j : Json) : String := stringifyAt 0 j

mutual
/-- Compact `JSON.stringify(v)` (no indentation), used for object-valued
`metacognitive_enhancement` (App.jsx line 132). -/
def stringifyC : Json → String
  | .null => "null"
  | .bool b => cond b "true" "false"
  | .num n => toString n
  | .str s => quoteStr s
  | .arr xs => "[" ++ itemsC xs ++ "]"
  | .obj fs => "\x7b" ++ fieldsC fs ++ "\x7d"

/-- Compact array items. -/
def itemsC : List Json → String
  | [] => ""
  | [x] => stringifyC x
  | x :: rest => stringifyC x ++ "," ++ itemsC rest

/-- Compact object fields. -/
def fieldsC : List (String × Json) → String
  | [] => ""
  | [(k, v)] => quoteStr k ++ ":" ++ stringifyC v
  | (k, v) :: rest => quoteStr k ++ ":" ++ stringifyC v ++ "," ++ fieldsC rest
end

/-- The bot reply tagged union built by handleSubmit: the four response
variants of the display model (`type` fields `philosophical_response`,
`synthesis_response`, `formatted_response`, `error_response`). -/
inductive BotReply where
  | philosophicalResponse (philosophers : Option Json) (responses : List (String × String)) (synthesis : Json)
  | synthesisResponse (philosophers : Json) (content : String)
  | formattedResponse (content : String)
  | errorResponse (content : String) (errMsg : String)

/-- The philosophers field of a reply, when the variant carries one. -/
def BotReply.philosophersOf : BotReply → Option Json
  | .philosophicalResponse ph _ _ => ph
  | .synthesisResponse ph _ => some ph
  | _ => none

/-- Effectful map over a list in the `Except` monad, failing on the
first element that fails (the order in which a JS `forEach`/`map`
surfaces a thrown exception). -/
def mapME {α β : Type} (f : α → Except String β) : List α → Except String (List β)
  | [] => .ok []
  | x :: rest => do
      let y ← f x
      let ys ← mapME f rest
      .ok (y :: ys)

/-- One bullet of the Reasoning Process list (App.jsx lines 86-90):
object-typed entries print `type`/`step` and the first present of
`description`/`exploration`/`analysis`/`sub-step`; other entries print
their string coercion. -/
def rpLine (rp : Json) : Except String String :=
  if rp.isObjType then do
    let t ← exGet rp "type"
    let st ← exGet rp "step"
    let d ← exGet rp "description"
    let e ← exGet rp "exploration"
    let a ← exGet rp "analysis"
    let ss ← exGet rp "sub-step"
    .ok ("- " ++ interpOr (firstTruthy [t, st]) "" ++ ": " ++ interpOr (firstTruthy [d, e, a, ss]) "" ++ "\n")
  else
    .ok ("- " ++ rp.toJsString ++ "\n")

/-- The Reasoning Process section body (App.jsx lines 84-94). -/
def reasoningProcessText (v : Option Json) : Except String String :=
  match v with
  | some (.arr xs) => do
      let lines ← mapME rpLine xs
      .ok (String.join lines)
  | _ => .ok "- No reasoning process provided\n"

/-- `x[key] || x`: the alternate key when its value is truthy, else the
entry itself (throws on a null entry, as `x.key` does). -/
def altOrSelf (key : String) (x : Json) : Except String Json := do
  let r ← exGet x key
  match r with
  | some v => .ok (if v.truthy then v else x)
  | none => .ok x

/-- Sections of the shape
`Array.isArray(v) ? v.map(x => x.key || x).join('\n') : v || 'd'`
(Metacognitive Awareness / Practical Application / Connection to
Principles / Cognitive Stimulation, App.jsx lines 95-99). -/
def mapJoinSection (key : String) (v : Option Json) (d : String) : Except String String :=
  match v with
  | some (.arr xs) => do
      let vs ← mapME (altOrSelf key) xs
      .ok (joinNl vs)
  | other => .ok (interpOr other d)

/-- The Core Insight line of one perspective (App.jsx line 82). -/
def coreInsightPart (step : Json) : String :=
  "**Core Insight**: " ++ interpOr (step.field "core_insight") "No insight provided" ++ "\n\n"

/-- Object key coercion of `responses[philosopher]`: `undefined` becomes
the key "undefined", every other value its string coercion. -/
def keyString : Option Json → String
  | none => "undefined"
  | some v => v.toJsString

/-- One `reasoning_chain` entry to its `(philosopher key, formatted
text)` pair (App.jsx lines 80-100). -/
def formatStep (step : Json) : Except String (String × String) := do
  let ph ← exGet step "philosopher"
  let rpT ← reasoningProcessText (step.field "reasoning_process")
  let maT ← mapJoinSection "reflection" (step.field "metacognitive_awareness") "None"
  let paT ← mapJoinSection "step" (step.field "practical_application") "None"
  let cpT ← mapJoinSection "link" (step.field "connection_to_principles") "None"
  let csT ← mapJoinSection "exercise" (step.field "cognitive_stimulation") "None"
  let text :=
    coreInsightPart step ++
    "**Reasoning Process**:\n" ++ rpT ++
    "\n**Metacognitive Awareness**: " ++ maT ++ "\n" ++
    "**Socratic Catalyst**: " ++ interpOr (step.field "socratic_catalyst") "None" ++ "\n" ++
    "**Practical Application**: " ++ paT ++ "\n" ++
    "**Connection to Principles**: " ++ cpT ++ "\n" ++
    "**Cognitive Stimulation**: " ++ csT
  .ok (keyString ph, text)

/-- `responses[k] = v` on a JS object modelled as an insertion-ordered
association list: overwrite in place, or append a new binding. -/
def insertResp : List (String × String) → String → String → List (String × String)
  | [], k, v => [(k, v)]
  | (k0, v0) :: rest, k, v =>
      if k0 = k then (k0, v) :: rest else (k0, v0) :: insertResp rest k v

/-- The `reasoning_chain.forEach` accumulation of the `responses`
object (App.jsx lines 79-101). -/
def buildResponses : List Json → List (String × String) → Except String (List (String × String))
  | [], acc => .ok acc
  | step :: rest, acc => do
      let kv ← formatStep step
      buildResponses rest (insertResp acc kv.1 kv.2)

/-- One bullet of a list-valued synthesis section: an ordered chain of
alternate keys, then the entry itself, then a literal default
(e.g. `ki.most_important_discovery || ki.unexamined_life_is_not_worth_living || ki || 'No insight provided'`). -/
def bulletLine (keys : List String) (d : String) (e : Json) : Except String String := do
  let vs ← mapME (exGet e) keys
  .ok ("- " ++ interpOr (firstTruthy (vs ++ [some e])) d ++ "\n")

/-- A list-valued synthesis section: bullets for an array value, a
literal absent-section line otherwise (App.jsx lines 108-175). -/
def bulletSection (v : Option Json) (keys : List String) (d : String) (absent : String) : Except String String :=
  match v with
  | some (.arr xs) => do
      let lines ← mapME (bulletLine keys d) xs
      .ok (String.join lines)
  | _ => .ok absent

/-- The Metacognitive Enhancement section (App.jsx lines 124-135):
array, string, object and default cases. -/
def metaEnhancementSection (v : Option Json) : Except String String :=
  match v with
  | some (.arr xs) => do
      let lines ← mapME (bulletLine ["reflection", "self-awareness"] "No enhancement provided") xs
      .ok (String.join lines)
  | some (.str s) => .ok ("- " ++ s ++ "\n")
  | some (.obj fs) => .ok ("- " ++ stringifyC (.obj fs) ++ "\n")
  | _ => .ok "- No metacognitive enhancement provided\n"

/-- Optional chaining `v?.key`: `undefined` on `undefined`/null bases,
plain lookup otherwise. -/
def optChain (v : Option Json) (key : String) : Option Json :=
  match v with
  | none => none
  | some .null => none
  | some j => j.field key

/-- The Metacognitive Prompts / Cognitive Enhancement Elements value:
`Array.isArray(v) ? v.join('\n') : v || 'None'` (App.jsx lines 177 and
188). -/
def promptsPart (v : Option Json) : String :=
  match v with
  | some (.arr xs) => joinNl xs
  | other => interpOr other "None"

/-- `Object.entries(v)`: fields of an object, indexed elements of an
array, indexed characters of a string, empty for other primitives. -/
def jsEntries : Json → List (String × Json)
  | .obj fs => fs
  | .arr xs => ((List.range xs.length).zip xs).map (fun p => (toString p.1, p.2))
  | .str s => ((List.range s.length).zip (s.toList.map (fun c => Json.str (String.mk [c])))).map
      (fun p => (toString p.1, p.2))
  | _ => []

/-- `key.charAt(0).toUpperCase() + key.slice(1)`. -/
def capFirst (s : String) : String :=
  match s.toList with
  | [] => ""
  | c :: rest => String.mk (c.toUpper :: rest)

/-- The Dialectical Challenges section (App.jsx lines 179-185): one
bullet per entry with the key capitalized when the value is truthy, a
literal default line otherwise. -/
def dialecticalSection (v : Option Json) : String :=
  match v with
  | some j =>
      if j.truthy then
        String.join ((jsEntries j).map (fun kv => "- " ++ capFirst kv.1 ++ ": " ++ kv.2.toJsString ++ "\n"))
      else "- No dialectical challenges provided\n"
  | none => "- No dialectical challenges provided\n"

/-- The Synthesis Quality Score line (App.jsx line 186). -/
def qualityScorePart (syn : Json) : String :=
  "\n**Synthesis Quality Score**: " ++ interpOr (syn.field "synthesis_quality_score") "Not provided" ++ "\n"

/-- The structured synthesis text built when
`typeof data.synthesis === 'object'` (App.jsx lines 104-188). -/
def structuredSynthesis (syn : Json) : Except String String := do
  let iw ← exGet syn "integrated_wisdom"
  let kiT ← bulletSection (syn.field "key_insights")
      ["most_important_discovery", "unexamined_life_is_not_worth_living"]
      "No insight provided" "- No key insights provided\n"
  let psT ← bulletSection (syn.field "practical_steps")
      ["step_1", "step_2", "step_3", "step"]
      "No step provided" "- No practical steps provided\n"
  let meT ← metaEnhancementSection (syn.field "metacognitive_enhancement")
  let rqaT ← bulletSection (syn.field "reasoning_quality_assessment")
      ["evaluation_of_reasoning_process"]
      "No assessment provided" "- No reasoning quality assessment provided\n"
  let cbT ← bulletSection (syn.field "cognitive_bridges")
      ["connection_between_different_thinking_modes"]
      "No bridge provided" "- No cognitive bridges provided\n"
  let teT ← bulletSection (syn.field "transformative_elements")
      ["aspect_that_could_change_user_perspective", "shift_in_focusing_on_what_you_can_control"]
      "No element provided" "- No transformative elements provided\n"
  let asT ← bulletSection (syn.field "application_scenarios")
      ["where_this_wisdom_applies"]
      "No scenario provided" "- No application scenarios provided\n"
  let dqT ← bulletSection (syn.field "deepening_questions")
      ["questions_for_continued_exporation"]
      "No question provided" "- No deepening questions provided\n"
  .ok (
    "**Integrated Wisdom**: " ++
      interpOr (firstTruthy [optChain iw "unified_insight_combining_all_perspectives", iw])
        "No unified insight provided" ++ "\n\n" ++
    "**Key Insights**:\n" ++ kiT ++
    "\n**Practical Steps**:\n" ++ psT ++
    "\n**Metacognitive Enhancement**:\n" ++ meT ++
    "\n**Reasoning Quality Assessment**:\n" ++ rqaT ++
    "\n**Cognitive Bridges**:\n" ++ cbT ++
    "\n**Transformative Elements**:\n" ++ teT ++
    "\n**Application Scenarios**:\n" ++ asT ++
    "\n**Deepening Questions**:\n" ++ dqT ++
    "\n**Metacognitive Prompts**:\n" ++ promptsPart (syn.field "metacognitive_prompts") ++ "\n" ++
    "\n**Dialectical Challenges**:\n" ++ dialecticalSection (syn.field "dialectical_challenges") ++
    qualityScorePart syn ++
    "**Cognitive Enhancement Elements**:\n" ++ promptsPart (syn.field "cognitive_enhancement_elements"))

/-- The synthesis value stored in the philosophical variant (App.jsx
lines 103-191): the structured text when the synthesis is
object-typed, else `data.synthesis || 'No synthesis provided'`
unchanged. -/
def synthesisTextOf (syn : Option Json) : Except String Json :=
  match syn with
  | some j =>
      if j.isObjType then (structuredSynthesis j).map Json.str
      else .ok (jsOr j (.str "No synthesis provided"))
  | none => .ok (.str "No synthesis provided")

/-- `data.reasoning_chain.forEach(...)`: the element list when the value
is an array, a TypeError otherwise (non-array truthy values have no
`forEach` method). -/
def forEachArray (rc : Option Json) : Except String (List Json) :=
  match rc with
  | some (.arr xs) => .ok xs
  | _ => .error "TypeError: data.reasoning_chain.forEach is not a function"

/-- The response normalizer of handleSubmit (App.jsx lines 76-210): one
parsed body to one bot reply, or the TypeError it throws (which the
surrounding catch then converts to the error variant). -/
def classify (data : Json) : Except String BotReply := do
  let rc ← exGet data "reasoning_chain"
  let syn ← exGet data "synthesis"
  if truthyO rc && truthyO syn then do
    let steps ← forEachArray rc
    let responses ← buildResponses steps []
    let synText ← synthesisTextOf syn
    .ok (.philosophicalResponse (data.field "philosophers_consulted") responses synText)
  else
    match syn with
    | some (.str s) =>
        .ok (.synthesisResponse (jsOrO (data.field "philosophers") (.arr [.str "Ancient Philosophers"])) s)
    | _ => .ok (.formattedResponse (prettyPrint data))

/-- One entry of the thinking-step catalog. -/
structure Step where
  id : Nat
  title : String
  description : String
  status : String

/-- The stage catalog `simulateThinkingSteps` (App.jsx lines 20-33): a
fixed nine-entry sequence whose only query-dependent content is the
query preview in the first description; the first status is
"thinking" (Active), the rest "pending". -/
def simulateThinkingSteps (query : String) : List Step :=
  [ ⟨1, "Analyzing query",
      "Parsing: \"" ++ query.take 50 ++ (if query.length > 50 then "..." else "") ++ "\"",
      "thinking"⟩,
    ⟨2, "Identifying themes", "Detecting philosophical dimensions and core concepts", "pending"⟩,
    ⟨3, "Selecting philosophers", "Choosing the most relevant ancient wisdom traditions", "pending"⟩,
    ⟨4, "Consulting Socrates", "Applying Socratic questioning and epistemic inquiry", "pending"⟩,
    ⟨5, "Consulting Marcus Aurelius", "Drawing on Stoic principles and practical wisdom", "pending"⟩,
    ⟨6, "Consulting Lao Tzu", "Integrating Daoist flow and natural harmony", "pending"⟩,
    ⟨7, "Consulting Aristotle", "Applying systematic analysis and virtue ethics", "pending"⟩,
    ⟨8, "Cross-referencing wisdom", "Finding convergences and complementary insights", "pending"⟩,
    ⟨9, "Synthesizing response", "Weaving together multiple philosophical perspectives", "pending"⟩ ]

/-- Characters removed by JavaScript `String.prototype.trim` (the usual
white space and line terminators). -/
def jsWhitespace (c : Char) : Bool :=
  c == ' ' || c == '\t' || c == '\n' || c == '\r' || c == '\x0b' || c == '\x0c' ||
  c == '\u00A0' || c == '\uFEFF'

/-- JavaScript `query.trim()`. -/
def jsTrim (s : String) : String :=
  String.mk (((s.toList.dropWhile jsWhitespace).reverse.dropWhile jsWhitespace).reverse)

/-- Message sender tag. -/
inductive Sender where
  | user : Sender
  | bot : Sender

/-- A message body: the raw query string for user messages, a normalized
reply for bot messages. -/
inductive MsgText where
  | plain (s : String) : MsgText
  | reply (r : BotReply) : MsgText

/-- One conversation entry (the `new Date()` timestamp is omitted: it is
opaque to every property stated here). -/
structure Message where
  sender : Sender
  text : MsgText

/-- The orchestrator-owned UI state of the App component. -/
structure AppState where
  query : String
  messages : List Message
  loading : Bool
  thinkingSteps : List Step
  typingMessage : Bool

/-- The outcome of the awaited fetch/parse: a parsed JSON body, or a
transport/parse rejection with its message. -/
inductive Outcome where
  | success (data : Json) : Outcome
  | failure (errMsg : String) : Outcome

/-- `updateThinkingStep` (App.jsx lines 35-41): set the status of the
step with the given id. -/
def updateThinkingStep (steps : List Step) (stepId : Nat) (status : String) : List Step :=
  steps.map (fun s => if s.id = stepId then { s with status := status } else s)

/-- The id of `steps[i]` (every access in the loop is in range). -/
def stepIdAt (steps : List Step) (i : Nat) : Nat :=
  match steps[i]? with
  | some s => s.id
  | none => 0

/-- One iteration of the timer loop (App.jsx lines 57-63): mark step `i`
completed, and the next step (if any) thinking. -/
def timerPass (steps : List Step) (st : AppState) (i : Nat) : AppState :=
  let st1 := { st with thinkingSteps := updateThinkingStep st.thinkingSteps (stepIdAt steps i) "completed" }
  if i + 1 < steps.length then
    { st1 with thinkingSteps := updateThinkingStep st1.thinkingSteps (stepIdAt steps (i + 1)) "thinking" }
  else st1

/-- The fixed apology reply built in the catch branch (App.jsx lines
216-220). -/
def errorReply (e : String) : BotReply :=
  .errorResponse "I apologize, but I'm having trouble connecting right now. Please try again in a moment." e

/-- The single bot reply a submission produces for a given network
outcome: the classifier result on success, the error reply when the
fetch/parse rejects or the classifier itself throws. -/
def botTextFor (o : Outcome) : BotReply :=
  match o with
  | .success data =>
      match classify data with
      | .ok r => r
      | .error e => errorReply e
  | .failure e => errorReply e

/-- `handleSubmit` (App.jsx lines 43-230) as a state transformer, given
the eventual network outcome: the guard on the trimmed query, the user
append / input clear / loading lock, the full awaited timer loop, the
typing indicator, the try/catch around fetch-parse-classify-append, and
the finally block. -/
def handleSubmit (st : AppState) (o : Outcome) : AppState :=
  if jsTrim st.query = "" then st
  else
    let currentQuery := st.query
    let st1 := { st with messages := st.messages ++ [Message.mk Sender.user (MsgText.plain st.query)] }
    let st2 := { st1 with query := "" }
    let st3 := { st2 with loading := true }
    let steps := simulateThinkingSteps currentQuery
    let st4 := { st3 with thinkingSteps := steps }
    let st5 := (List.range steps.length).foldl (timerPass steps) st4
    let st6 := { st5 with typingMessage := true }
    let st7 :=
      match o with
      | Outcome.success data =>
          match classify data with
          | Except.ok r =>
              let sA := { st6 with messages := st6.messages ++ [Message.mk Sender.bot (MsgText.reply r)] }
              { sA with thinkingSteps := [] }
          | Except.error e =>
              let sA := { st6 with messages := st6.messages ++ [Message.mk Sender.bot (MsgText.reply (errorReply e))] }
              { sA with thinkingSteps := [] }
      | Outcome.failure e =>
          let sA := { st6 with messages := st6.messages ++ [Message.mk Sender.bot (MsgText.reply (errorReply e))] }
          { sA with thinkingSteps := [] }
    { st7 with loading := false, typingMessage := false }

/-- Suspension-ordered events of one `handleSubmit` run.  Only the order
matters: one constructor per observable action. -/
inductive Event where
  | appendUser : Event
  | clearInput : Event
  | setLoadingTrue : Event
  | setSteps : Event
  | timerWait : Event
  | markCompleted (id : Nat) : Event
  | markThinking (id : Nat) : Event
  | setTyping : Event
  | fetchStart : Event
  | fetchResolved : Event
  | fetchFailed : Event
  | appendBot : Event
  | clearSteps : Event
  | setLoadingFalse : Event
  | clearTyping : Event

/-- Whether an event is the issuing of the network call. -/
def isFetch : Event → Bool
  | .fetchStart => true
  | _ => false

/-- Whether an event is one of the 800ms timer waits of the Progress
Simulator. -/
def isTimer : Event → Bool
  | .timerWait => true
  | _ => false

/-- The events of the timer loop (App.jsx lines 57-63): for each of the
nine stages, an awaited 800ms wait, the completion mark, and (except
after the last stage) the activation of the next stage. -/
def timerEvents : List Event :=
  (List.range 9).flatMap (fun i =>
    [Event.timerWait, Event.markCompleted (i + 1)] ++
    (if i < 8 then [Event.markThinking (i + 2)] else []))

/-- The suspension-ordered event trace of one `handleSubmit` run
(App.jsx lines 43-230), in program order: the awaited timer loop (lines
57-63) runs to completion before `fetch` is invoked (line 68). -/
def submitTrace (q : String) (o : Outcome) : List Event :=
  if jsTrim q = "" then []
  else
    [Event.appendUser, Event.clearInput, Event.setLoadingTrue, Event.setSteps] ++
    timerEvents ++
    [Event.setTyping, Event.fetchStart] ++
    (match o with
     | Outcome.success _ => [Event.fetchResolved, Event.appendBot, Event.clearSteps]
     | Outcome.failure _ => [Event.fetchFailed, Event.appendBot, Event.clearSteps]) ++
    [Event.setLoadingFalse, Event.clearTyping]

/-- No element of an array-valued field is JSON null (non-arrays and
absent fields impose nothing).  Null elements are exactly what makes
the per-entry alternate-key reads of the normalizer throw. -/
def noNullElems (v : Option Json) : Bool :=
  match v with
  | some (Json.arr xs) => xs.all (fun j => !j.isNull)
  | _ => true

/-- The section fields of one `reasoning_chain` entry that the
normalizer maps over. -/
def stepSectionKeys : List String :=
  ["reasoning_process", "metacognitive_awareness", "practical_application",
   "connection_to_principles", "cognitive_stimulation"]

/-- A `reasoning_chain` entry the normalizer can format without
throwing: not null, and no null elements inside its mapped sections. -/
def safeStep (step : Json) : Bool :=
  !step.isNull && stepSectionKeys.all (fun k => noNullElems (step.field k))

/-- The list-valued sections of a structured synthesis that the
normalizer maps over. -/
def synthSectionKeys : List String :=
  ["key_insights", "practical_steps", "metacognitive_enhancement",
   "reasoning_quality_assessment", "cognitive_bridges", "transformative_elements",
   "application_scenarios", "deepening_questions"]

/-- A synthesis value the normalizer can format without throwing. -/
def safeSynthesis (syn : Json) : Bool :=
  synthSectionKeys.all (fun k => noNullElems (syn.field k))

/-- Payload shapes on which the classifier provably completes: the body
is not null, and when the philosophical branch is taken its
`reasoning_chain` is an array of well-shaped entries and its synthesis
is well-shaped. -/
def safeShape (data : Json) : Bool :=
  !data.isNull &&
  (if truthyO (data.field "reasoning_chain") && truthyO (data.field "synthesis") then
    (match data.field "reasoning_chain" with
     | some (Json.arr steps) => steps.all safeStep
     | _ => false) &&
    (match data.field "synthesis" with
     | some synJ => safeSynthesis synJ
     | none => false)
  else true)

/-- First-match-wins dispatch, as the spec states it with presence read
as JS truthiness: a truthy reasoning chain together with a truthy
synthesis yields the Philosophical variant; otherwise a plain-string
synthesis yields the Synthesis variant; otherwise the RawFallback
variant carrying the pretty-printed whole payload. -/
def ClassifyDispatch (p : Json) (r : BotReply) : Prop :=
  ((truthyO (p.field "reasoning_chain") && truthyO (p.field "synthesis")) = true →
    ∃ ph resp synText, r = BotReply.philosophicalResponse ph resp synText) ∧
  ((truthyO (p.field "reasoning_chain") && truthyO (p.field "synthesis")) = false →
    (∀ s : String, p.field "synthesis" = some (Json.str s) →
      r = BotReply.synthesisResponse
            (jsOrO (p.field "philosophers") (Json.arr [Json.str "Ancient Philosophers"])) s) ∧
    ((∀ s : String, p.field "synthesis" ≠ some (Json.str s)) →
      r = BotReply.formattedResponse (prettyPrint p)))

set_option maxRecDepth 8000

@[simp]
theorem ok_bind {α β : Type} (a : α) (f : α → Except String β) :
    (Except.ok a >>= f : Except String β) = f a := rfl

@[simp]
theorem error_bind {α β : Type} (e : String) (f : α → Except String β) :
    (Except.error e >>= f : Except String β) = Except.error e := rfl

theorem exGet_eq_ok (j : Json) (k : String) (h : j.isNull = false) :
    exGet j k = Except.ok (j.field k) := by
  cases j
  case null => simp [Json.isNull] at h
  all_goals rfl

theorem truthy_not_null (j : Json) (h : j.truthy = true) : j.isNull = false := by
  cases j <;> simp_all [Json.truthy, Json.isNull]

theorem jsOrO_of_falsy (v : Option Json) (d : Json) (h : truthyO v = false) :
    jsOrO v d = d := by
  cases v with
  | none => rfl
  | some j => simp_all [jsOrO, truthyO]

/-- Shared branch computation: a payload whose synthesis is a plain
string, with falsy `reasoning_chain` and falsy `philosophers`,
classifies to the Synthesis variant with the default participant
list. -/
theorem classify_synthesis_default (p : Json) (s : String)
    (hs : p.field "synthesis" = some (Json.str s))
    (hrc : truthyO (p.field "reasoning_chain") = false)
    (hph : truthyO (p.field "philosophers") = false) :
    classify p =
      Except.ok (BotReply.synthesisResponse (Json.arr [Json.str "Ancient Philosophers"]) s) := by
  have hnn : p.isNull = false := by
    cases p
    case null => simp [Json.field] at hs
    all_goals rfl
  unfold classify
  rw [exGet_eq_ok p _ hnn, exGet_eq_ok p _ hnn]
  simp only [ok_bind]
  rw [hs, hrc]
  simp only [Bool.false_and, Bool.false_eq_true, if_false]
  rw [jsOrO_of_falsy _ _ hph]

/-- C6: any payload whose synthesis field is a plain string `s`, with no
(truthy) `reasoning_chain` and no (truthy) `philosophers` list,
classifies to the Synthesis variant whose content is exactly `s` and
whose philosophers field is the default participant list
`["Ancient Philosophers"]`.  The claim's concrete instance
`{"synthesis": "Know thyself."}` is the witness. -/
theorem c6_synthesis_scenario (p : Json) (s : String)
    (hs : p.field "synthesis" = some (Json.str s))
    (hrc : truthyO (p.field "reasoning_chain") = false)
    (hph : truthyO (p.field "philosophers") = false) :
    classify p =
      Except.ok (BotReply.synthesisResponse (Json.arr [Json.str "Ancient Philosophers"]) s) :=
  classify_synthesis_default p s hs hrc hph

theorem c6_synthesis_scenario_witness :
    classify (Json.obj [("synthesis", Json.str "Know thyself.")]) =
      Except.ok (BotReply.synthesisResponse (Json.arr [Json.str "Ancient Philosophers"])
        "Know thyself.") :=
  c6_synthesis_scenario (Json.obj [("synthesis", Json.str "Know thyself.")]) "Know thyself."
    rfl rfl rfl

/-- C7: submitting while the query is empty or whitespace-only after
trimming is a strict no-op: the whole state (messages, input buffer,
loading flag, thinking steps, typing indicator) is returned
unchanged, for every network outcome. -/
theorem c7_empty_query_noop (st : AppState) (o : Outcome) (h : jsTrim st.query = "") :
    handleSubmit st o = st := by
  unfold handleSubmit
  rw [if_pos h]

theorem c7_empty_query_noop_witness :
    jsTrim "   " = "" ∧
    handleSubmit (AppState.mk "   " [] false [] false) (Outcome.failure "network down") =
      AppState.mk "   " [] false [] false :=
  ⟨by decide, c7_empty_query_noop (AppState.mk "   " [] false [] false)
    (Outcome.failure "network down") (by decide)⟩

/-- C8: the stage catalog is a pure function of the query: it always
returns the same nine stages in the same order with ids 1..9, the
first stage Active ("thinking") and all others Pending; the only
query-dependent content is the preview embedded in the first stage's
description, truncated to 50 characters with "..." appended exactly
when the query is longer. -/
theorem c8_stage_catalog (q : String) :
    (simulateThinkingSteps q).length = 9 ∧
    (simulateThinkingSteps q).map Step.id = [1, 2, 3, 4, 5, 6, 7, 8, 9] ∧
    (simulateThinkingSteps q).map Step.status = "thinking" :: List.replicate 8 "pending" ∧
    ((simulateThinkingSteps q).head?).map Step.description =
      some ("Parsing: \"" ++ q.take 50 ++ (if q.length > 50 then "..." else "") ++ "\"") ∧
    ∀ q' : String,
      ((simulateThinkingSteps q).map Step.title = (simulateThinkingSteps q').map Step.title ∧
       ((simulateThinkingSteps q).map Step.description).tail =
         ((simulateThinkingSteps q').map Step.description).tail) :=
  ⟨rfl, rfl, rfl, rfl, fun q' => ⟨by simp [simulateThinkingSteps], by simp [simulateThinkingSteps]⟩⟩

/-- C10: presence is decided by truthiness, not key presence — a
`core_insight` field that is present but falsy renders the literal
"No insight provided" placeholder, and a present-but-falsy
`synthesis_quality_score` renders "Not provided", exactly as when the
fields are absent. -/
theorem c10_falsy_fields_render_placeholders :
    (∀ step v : Json, step.field "core_insight" = some v → v.truthy = false →
        coreInsightPart step = "**Core Insight**: No insight provided\n\n") ∧
    (∀ syn w : Json, syn.field "synthesis_quality_score" = some w → w.truthy = false →
        qualityScorePart syn = "\n**Synthesis Quality Score**: Not provided\n") := by
  constructor
  · intro step v hv ht
    simp [coreInsightPart, interpOr, hv, ht]
  · intro syn w hw ht
    simp [qualityScorePart, interpOr, hw, ht]

theorem c10_falsy_fields_render_placeholders_witness :
    coreInsightPart (Json.obj [("core_insight", Json.str "")]) =
      "**Core Insight**: No insight provided\n\n" ∧
    qualityScorePart (Json.obj [("synthesis_quality_score", Json.num 0)]) =
      "\n**Synthesis Quality Score**: Not provided\n" :=
  ⟨c10_falsy_fields_render_placeholders.1 _ (Json.str "") rfl (by decide),
   c10_falsy_fields_render_placeholders.2 _ (Json.num 0) rfl (by decide)⟩

/-- C4 counterexample: the claim says the timer chain is not awaited
before the network call, i.e. that some staged timer wait is still
pending once `fetch` is issued.  On the concrete submission of
"hello", the trace contains all nine timer waits strictly before the
`fetch` event (none at or after it), and the fetch event is present:
the timer loop of App.jsx lines 57-63 is fully awaited before line 68
runs.  This proves the claim false. -/
theorem c4_counterexample_sequential_trace :
    ((submitTrace "hello" (Outcome.failure "boom")).dropWhile (fun e => !(isFetch e))).all
        (fun e => !(isTimer e)) = true ∧
    (submitTrace "hello" (Outcome.failure "boom")).countP isTimer = 9 ∧
    (submitTrace "hello" (Outcome.failure "boom")).any isFetch = true := by
  refine ⟨?_, ?_, ?_⟩ <;> rfl

/-- C4 amended: on every submission of a non-empty query and for every
network outcome, the staged timer sequence is fully awaited before
the network call: the trace contains the fetch event, all nine timer
waits occur strictly before it, and no timer event follows it.  (The
simulator therefore always finishes its sequence before the request
even starts; the response never arrives while stage transitions are
pending.) -/
theorem c4_amended_timer_chain_awaited_before_fetch (q : String) (o : Outcome)
    (h : jsTrim q ≠ "") :
    ((submitTrace q o).dropWhile (fun e => !(isFetch e))).all (fun e => !(isTimer e)) = true ∧
    (submitTrace q o).countP isTimer = 9 ∧
    (submitTrace q o).any isFetch = true := by
  unfold submitTrace
  rw [if_neg h]
  cases o <;> exact ⟨rfl, rfl, rfl⟩

theorem c4_amended_timer_chain_awaited_before_fetch_witness :
    jsTrim "hello" ≠ "" ∧
    (((submitTrace "hello" (Outcome.success Json.null)).dropWhile
        (fun e => !(isFetch e))).all (fun e => !(isTimer e)) = true ∧
     (submitTrace "hello" (Outcome.success Json.null)).countP isTimer = 9 ∧
     (submitTrace "hello" (Outcome.success Json.null)).any isFetch = true) :=
  ⟨by decide,
   c4_amended_timer_chain_awaited_before_fetch "hello" (Outcome.success Json.null) (by decide)⟩

/-- The classifier throws on the body `null`: the very first step,
reading `data.reasoning_chain` (App.jsx line 77), is a property read
on null. -/
theorem classify_null_throws :
    classify Json.null =
      Except.error "TypeError: Cannot read properties of null (reading 'reasoning_chain')" := rfl

/-- C1 counterexample: the claim says no JSON body (null included)
makes the classifier itself throw.  On the body `null`, the very
first classifier step, reading `data.reasoning_chain` (App.jsx line
77), throws a TypeError, which is what the surrounding catch branch
then receives. -/
theorem c1_counterexample_null_body_throws :
    classify Json.null =
      Except.error "TypeError: Cannot read properties of null (reading 'reasoning_chain')" :=
  classify_null_throws

/-- C2 counterexample: for the parsed body `null` (which has neither a
reasoning chain nor a synthesis field) the claim prescribes the
RawFallback variant carrying the pretty-printed payload; the
classifier instead throws before reaching any variant. -/
theorem c2_counterexample_null_body_not_fallback :
    classify Json.null ≠ Except.ok (BotReply.formattedResponse (prettyPrint Json.null)) := by
  intro hc
  rw [classify_null_throws] at hc
  exact Except.noConfusion hc

/-- Inversion of a successful classification: the reply came from
exactly one of the three dispatch branches, carrying the data that
branch stores. -/
theorem classify_cases (p : Json) (r : BotReply) (h : classify p = Except.ok r) :
    (∃ resp synText,
        (truthyO (p.field "reasoning_chain") && truthyO (p.field "synthesis")) = true ∧
        synthesisTextOf (p.field "synthesis") = Except.ok synText ∧
        r = BotReply.philosophicalResponse (p.field "philosophers_consulted") resp synText) ∨
    (∃ s : String,
        (truthyO (p.field "reasoning_chain") && truthyO (p.field "synthesis")) = false ∧
        p.field "synthesis" = some (Json.str s) ∧
        r = BotReply.synthesisResponse
              (jsOrO (p.field "philosophers") (Json.arr [Json.str "Ancient Philosophers"])) s) ∨
    ((truthyO (p.field "reasoning_chain") && truthyO (p.field "synthesis")) = false ∧
        (∀ s : String, p.field "synthesis" ≠ some (Json.str s)) ∧
        r = BotReply.formattedResponse (prettyPrint p)) := by
  have hnn : p.isNull = false := by
    cases p
    case null => rw [classify_null_throws] at h; exact Except.noConfusion h
    all_goals rfl
  unfold classify at h
  rw [exGet_eq_ok p _ hnn, exGet_eq_ok p _ hnn] at h
  simp only [ok_bind] at h
  by_cases hc : (truthyO (p.field "reasoning_chain") && truthyO (p.field "synthesis")) = true
  · rw [if_pos hc] at h
    cases hF : forEachArray (p.field "reasoning_chain") with
    | error e => rw [hF] at h; simp at h
    | ok steps =>
      rw [hF] at h
      simp only [ok_bind] at h
      cases hB : buildResponses steps [] with
      | error e => rw [hB] at h; simp at h
      | ok resp =>
        rw [hB] at h
        simp only [ok_bind] at h
        cases hS : synthesisTextOf (p.field "synthesis") with
        | error e => rw [hS] at h; simp at h
        | ok synText =>
          rw [hS] at h
          simp only [ok_bind] at h
          left
          exact ⟨resp, synText, hc, rfl, (Except.ok.inj h).symm⟩
  · have hc' : (truthyO (p.field "reasoning_chain") && truthyO (p.field "synthesis")) = false := by
      revert hc
      cases truthyO (p.field "reasoning_chain") && truthyO (p.field "synthesis") <;> simp
    rw [if_neg hc] at h
    cases hsy : p.field "synthesis" with
    | none =>
      rw [hsy] at hc' h
      right; right
      exact ⟨hc', fun s hs => Option.noConfusion hs, (Except.ok.inj h).symm⟩
    | some j =>
      rw [hsy] at hc' h
      cases j with
      | str s =>
        right; left
        exact ⟨s, hc', rfl, (Except.ok.inj h).symm⟩
      | null =>
        right; right
        exact ⟨hc', fun s hs => by simp at hs, (Except.ok.inj h).symm⟩
      | bool b =>
        right; right
        exact ⟨hc', fun s hs => by simp at hs, (Except.ok.inj h).symm⟩
      | num n =>
        right; right
        exact ⟨hc', fun s hs => by simp at hs, (Except.ok.inj h).symm⟩
      | arr xs =>
        right; right
        exact ⟨hc', fun s hs => by simp at hs, (Except.ok.inj h).symm⟩
      | obj fs =>
        right; right
        exact ⟨hc', fun s hs => by simp at hs, (Except.ok.inj h).symm⟩

/-- C2 amended: for every parsed response body on which the classifier
completes (it throws on a null body, see the counterexample),
classification is first-match-wins in the stated order: truthy
`reasoning_chain` and truthy `synthesis` yield the Philosophical
variant; otherwise a plain-string synthesis yields the Synthesis
variant; otherwise the RawFallback variant carrying the
pretty-printed JSON serialization of the whole payload. -/
theorem c2_amended_first_match_dispatch (p : Json) (r : BotReply)
    (h : classify p = Except.ok r) : ClassifyDispatch p r := by
  rcases classify_cases p r h with
    ⟨resp, synText, hc, _, hr⟩ | ⟨s, hc, hsy, hr⟩ | ⟨hc, hns, hr⟩
  · constructor
    · intro _
      exact ⟨p.field "philosophers_consulted", resp, synText, hr⟩
    · intro hfalse
      rw [hc] at hfalse
      exact Bool.noConfusion hfalse
  · constructor
    · intro htrue
      rw [htrue] at hc
      exact Bool.noConfusion hc
    · intro _
      constructor
      · intro s' hs'
        rw [hsy] at hs'
        have hss : s = s' := by simpa using hs'
        rw [← hss]
        exact hr
      · intro hns'
        exact absurd hsy (hns' s)
  · constructor
    · intro htrue
      rw [htrue] at hc
      exact Bool.noConfusion hc
    · intro _
      constructor
      · intro s hs
        exact absurd hs (hns s)
      · intro _
        exact hr

theorem c2_amended_first_match_dispatch_witness :
    ClassifyDispatch (Json.obj [("answer", Json.num 42)])
      (BotReply.formattedResponse (prettyPrint (Json.obj [("answer", Json.num 42)]))) :=
  c2_amended_first_match_dispatch (Json.obj [("answer", Json.num 42)])
    (BotReply.formattedResponse (prettyPrint (Json.obj [("answer", Json.num 42)]))) rfl

/-- C3 counterexample: for the payload
`{"reasoning_chain": [], "synthesis": "hi"}` (whose
`philosophers_consulted` list is missing) the constructed
Philosophical variant carries `undefined` (`none`) in its
philosophers field — not a literal default list of participant names,
as the claim states for both variants. -/
theorem c3_counterexample_philosophical_no_default :
    classify (Json.obj [("reasoning_chain", Json.arr []), ("synthesis", Json.str "hi")]) =
      Except.ok (BotReply.philosophicalResponse none [] (Json.str "hi")) ∧
    (BotReply.philosophicalResponse none [] (Json.str "hi")).philosophersOf = none :=
  ⟨rfl, rfl⟩

/-- C3 amended: the literal default participant list
`["Ancient Philosophers"]` is substituted for a missing (or falsy)
`philosophers` list only in the Synthesis variant; the Philosophical
variant stores the raw `philosophers_consulted` lookup unchanged, so
a missing list yields an absent (`undefined`) philosophers field
there (the UI falls back to the text "Multiple philosophers" only at
render time). -/
theorem c3_amended_default_only_for_synthesis :
    (∀ (p : Json) (s : String),
        p.field "synthesis" = some (Json.str s) →
        truthyO (p.field "reasoning_chain") = false →
        truthyO (p.field "philosophers") = false →
        classify p =
          Except.ok (BotReply.synthesisResponse (Json.arr [Json.str "Ancient Philosophers"]) s)) ∧
    (∀ (p : Json) (ph : Option Json) (resp : List (String × String)) (synText : Json),
        classify p = Except.ok (BotReply.philosophicalResponse ph resp synText) →
        ph = p.field "philosophers_consulted") := by
  constructor
  · intro p s hs hrc hph
    exact classify_synthesis_default p s hs hrc hph
  · intro p ph resp synText h
    rcases classify_cases p (BotReply.philosophicalResponse ph resp synText) h with
      ⟨resp', synText', _, _, hr⟩ | ⟨s, _, _, hr⟩ | ⟨_, _, hr⟩
    · simp only [BotReply.philosophicalResponse.injEq] at hr
      exact hr.1
    · exact BotReply.noConfusion hr
    · exact BotReply.noConfusion hr

theorem c3_amended_default_only_for_synthesis_witness :
    classify (Json.obj [("synthesis", Json.str "go")]) =
      Except.ok (BotReply.synthesisResponse (Json.arr [Json.str "Ancient Philosophers"]) "go") ∧
    (none : Option Json) =
      (Json.obj [("reasoning_chain", Json.arr []), ("synthesis", Json.str "b")]).field
        "philosophers_consulted" :=
  ⟨c3_amended_default_only_for_synthesis.1 (Json.obj [("synthesis", Json.str "go")]) "go"
      rfl rfl rfl,
   c3_amended_default_only_for_synthesis.2
      (Json.obj [("reasoning_chain", Json.arr []), ("synthesis", Json.str "b")])
      none [] (Json.str "b") rfl⟩

/-- C9: a payload with a truthy `reasoning_chain` and a non-empty
plain-string synthesis classifies to the Philosophical variant (the
first branch wins over the Synthesis branch), and the synthesis text
stored in the variant is the provided string unchanged — no labeled
sections are added. -/
theorem c9_philosophical_wins_with_string_synthesis (p : Json) (s : String) (r : BotReply)
    (hrc : truthyO (p.field "reasoning_chain") = true)
    (hsy : p.field "synthesis" = some (Json.str s))
    (hne : s ≠ "")
    (h : classify p = Except.ok r) :
    ∃ ph resp, r = BotReply.philosophicalResponse ph resp (Json.str s) := by
  rcases classify_cases p r h with
    ⟨resp, synText, hc, hS, hr⟩ | ⟨s', hc, _, _⟩ | ⟨hc, _, _⟩
  · rw [hsy] at hS
    have hS' : synthesisTextOf (some (Json.str s)) = Except.ok (Json.str s) := by
      simp [synthesisTextOf, Json.isObjType, jsOr, Json.truthy, hne]
    rw [hS'] at hS
    have hsub : Json.str s = synText := Except.ok.inj hS
    rw [← hsub] at hr
    exact ⟨p.field "philosophers_consulted", resp, hr⟩
  · rw [hsy, hrc] at hc
    simp [truthyO, Json.truthy, hne] at hc
  · rw [hsy, hrc] at hc
    simp [truthyO, Json.truthy, hne] at hc

theorem c9_philosophical_wins_with_string_synthesis_witness :
    ∃ ph resp,
      BotReply.philosophicalResponse none [] (Json.str "wisdom") =
        BotReply.philosophicalResponse ph resp (Json.str "wisdom") :=
  c9_philosophical_wins_with_string_synthesis
    (Json.obj [("reasoning_chain", Json.arr []), ("synthesis", Json.str "wisdom")])
    "wisdom" (BotReply.philosophicalResponse none [] (Json.str "wisdom"))
    rfl rfl (by decide) rfl

@[simp]
theorem timerPass_messages (steps : List Step) (st : AppState) (i : Nat) :
    (timerPass steps st i).messages = st.messages := by
  unfold timerPass
  split <;> rfl

@[simp]
theorem timerPass_loading (steps : List Step) (st : AppState) (i : Nat) :
    (timerPass steps st i).loading = st.loading := by
  unfold timerPass
  split <;> rfl

@[simp]
theorem timerPass_typing (steps : List Step) (st : AppState) (i : Nat) :
    (timerPass steps st i).typingMessage = st.typingMessage := by
  unfold timerPass
  split <;> rfl

@[simp]
theorem foldl_timerPass_messages (steps : List Step) :
    ∀ (l : List Nat) (st : AppState),
      (List.foldl (timerPass steps) st l).messages = st.messages := by
  intro l
  induction l with
  | nil => intro st; rfl
  | cons i rest ih =>
    intro st
    rw [List.foldl_cons, ih (timerPass steps st i), timerPass_messages]

@[simp]
theorem foldl_timerPass_loading (steps : List Step) :
    ∀ (l : List Nat) (st : AppState),
      (List.foldl (timerPass steps) st l).loading = st.loading := by
  intro l
  induction l with
  | nil => intro st; rfl
  | cons i rest ih =>
    intro st
    rw [List.foldl_cons, ih (timerPass steps st i), timerPass_loading]

@[simp]
theorem foldl_timerPass_typing (steps : List Step) :
    ∀ (l : List Nat) (st : AppState),
      (List.foldl (timerPass steps) st l).typingMessage = st.typingMessage := by
  intro l
  induction l with
  | nil => intro st; rfl
  | cons i rest ih =>
    intro st
    rw [List.foldl_cons, ih (timerPass steps st i), timerPass_typing]

/-- C5: for every submission of a non-empty query and every network
outcome (a successful response of any JSON shape — whether or not the
classifier completes on it — or a transport/parse failure), exactly
one User and exactly one Bot message are appended in that order, the
thinking-step state is cleared, and the machine returns to Idle:
loading and the typing indicator are both false again. -/
theorem c5_exactly_one_bot_message_and_idle (st : AppState) (o : Outcome)
    (h : jsTrim st.query ≠ "") :
    (handleSubmit st o).messages =
      st.messages ++ [Message.mk Sender.user (MsgText.plain st.query),
                      Message.mk Sender.bot (MsgText.reply (botTextFor o))] ∧
    (handleSubmit st o).thinkingSteps = [] ∧
    (handleSubmit st o).loading = false ∧
    (handleSubmit st o).typingMessage = false := by
  unfold handleSubmit
  rw [if_neg h]
  cases o with
  | success data =>
    cases hc : classify data with
    | ok r => simp [botTextFor, hc]
    | error e => simp [botTextFor, hc]
  | failure e => simp [botTextFor]

theorem c5_exactly_one_bot_message_and_idle_witness :
    jsTrim "why" ≠ "" ∧
    ((handleSubmit (AppState.mk "why" [] false [] false) (Outcome.failure "offline")).messages =
      [] ++ [Message.mk Sender.user (MsgText.plain "why"),
             Message.mk Sender.bot (MsgText.reply (botTextFor (Outcome.failure "offline")))] ∧
     (handleSubmit (AppState.mk "why" [] false [] false) (Outcome.failure "offline")).thinkingSteps
       = [] ∧
     (handleSubmit (AppState.mk "why" [] false [] false) (Outcome.failure "offline")).loading
       = false ∧
     (handleSubmit (AppState.mk "why" [] false [] false)
        (Outcome.failure "offline")).typingMessage = false) :=
  ⟨by decide,
   c5_exactly_one_bot_message_and_idle (AppState.mk "why" [] false [] false)
     (Outcome.failure "offline") (by decide)⟩

theorem mapME_ok {α β : Type} (f : α → Except String β) :
    ∀ xs : List α, (∀ x ∈ xs, ∃ y, f x = Except.ok y) → ∃ ys, mapME f xs = Except.ok ys := by
  intro xs
  induction xs with
  | nil => intro _; exact ⟨[], rfl⟩
  | cons x rest ih =>
    intro h
    obtain ⟨y, hy⟩ := h x (List.mem_cons_self x rest)
    obtain ⟨ys, hys⟩ := ih (fun a ha => h a (List.mem_cons_of_mem _ ha))
    refine ⟨y :: ys, ?_⟩
    simp only [mapME]
    rw [hy]
    simp only [ok_bind]
    rw [hys]
    rfl

theorem rpLine_ok (rp : Json) (h : rp.isNull = false) : ∃ s, rpLine rp = Except.ok s := by
  cases rp
  case null => simp [Json.isNull] at h
  all_goals exact ⟨_, rfl⟩

theorem reasoningProcessText_ok (v : Option Json) (h : noNullElems v = true) :
    ∃ s, reasoningProcessText v = Except.ok s := by
  cases v with
  | none => exact ⟨_, rfl⟩
  | some j =>
    cases j with
    | arr xs =>
      simp only [noNullElems, List.all_eq_true] at h
      obtain ⟨ls, hls⟩ := mapME_ok rpLine xs
        (fun x hx => rpLine_ok x (by simpa using h x hx))
      refine ⟨String.join ls, ?_⟩
      simp [reasoningProcessText, hls]
    | null => exact ⟨_, rfl⟩
    | bool b => exact ⟨_, rfl⟩
    | num n => exact ⟨_, rfl⟩
    | str s => exact ⟨_, rfl⟩
    | obj fs => exact ⟨_, rfl⟩

theorem altOrSelf_ok (key : String) (x : Json) (h : x.isNull = false) :
    ∃ y, altOrSelf key x = Except.ok y := by
  unfold altOrSelf
  rw [exGet_eq_ok x key h]
  simp only [ok_bind]
  cases x.field key with
  | none => exact ⟨_, rfl⟩
  | some v => exact ⟨_, rfl⟩

theorem mapJoinSection_ok (key : String) (v : Option Json) (d : String)
    (h : noNullElems v = true) : ∃ s, mapJoinSection key v d = Except.ok s := by
  cases v with
  | none => exact ⟨_, rfl⟩
  | some j =>
    cases j with
    | arr xs =>
      simp only [noNullElems, List.all_eq_true] at h
      obtain ⟨vs, hvs⟩ := mapME_ok (altOrSelf key) xs
        (fun x hx => altOrSelf_ok key x (by simpa using h x hx))
      refine ⟨joinNl vs, ?_⟩
      simp [mapJoinSection, hvs]
    | null => exact ⟨_, rfl⟩
    | bool b => exact ⟨_, rfl⟩
    | num n => exact ⟨_, rfl⟩
    | str s => exact ⟨_, rfl⟩
    | obj fs => exact ⟨_, rfl⟩

theorem bulletLine_ok (keys : List String) (d : String) (e : Json) (h : e.isNull = false) :
    ∃ s, bulletLine keys d e = Except.ok s := by
  obtain ⟨vs, hvs⟩ := mapME_ok (exGet e) keys (fun k _ => ⟨e.field k, exGet_eq_ok e k h⟩)
  unfold bulletLine
  rw [hvs]
  exact ⟨_, rfl⟩

theorem bulletSection_ok (v : Option Json) (keys : List String) (d absent : String)
    (h : noNullElems v = true) : ∃ s, bulletSection v keys d absent = Except.ok s := by
  cases v with
  | none => exact ⟨_, rfl⟩
  | some j =>
    cases j with
    | arr xs =>
      simp only [noNullElems, List.all_eq_true] at h
      obtain ⟨ls, hls⟩ := mapME_ok (bulletLine keys d) xs
        (fun x hx => bulletLine_ok keys d x (by simpa using h x hx))
      refine ⟨String.join ls, ?_⟩
      simp [bulletSection, hls]
    | null => exact ⟨_, rfl⟩
    | bool b => exact ⟨_, rfl⟩
    | num n => exact ⟨_, rfl⟩
    | str s => exact ⟨_, rfl⟩
    | obj fs => exact ⟨_, rfl⟩

theorem metaEnhancementSection_ok (v : Option Json) (h : noNullElems v = true) :
    ∃ s, metaEnhancementSection v = Except.ok s := by
  cases v with
  | none => exact ⟨_, rfl⟩
  | some j =>
    cases j with
    | arr xs =>
      simp only [noNullElems, List.all_eq_true] at h
      obtain ⟨ls, hls⟩ := mapME_ok (bulletLine ["reflection", "self-awareness"] "No enhancement provided") xs
        (fun x hx => bulletLine_ok _ _ x (by simpa using h x hx))
      refine ⟨String.join ls, ?_⟩
      simp [metaEnhancementSection, hls]
    | null => exact ⟨_, rfl⟩
    | bool b => exact ⟨_, rfl⟩
    | num n => exact ⟨_, rfl⟩
    | str s => exact ⟨_, rfl⟩
    | obj fs => exact ⟨_, rfl⟩

theorem formatStep_ok (step : Json) (h : safeStep step = true) :
    ∃ kv, formatStep step = Except.ok kv := by
  simp only [safeStep, Bool.and_eq_true, Bool.not_eq_true', List.all_eq_true] at h
  obtain ⟨hnn, hsec⟩ := h
  obtain ⟨rpT, hrpT⟩ := reasoningProcessText_ok (step.field "reasoning_process")
    (hsec "reasoning_process" (by decide))
  obtain ⟨maT, hmaT⟩ := mapJoinSection_ok "reflection" (step.field "metacognitive_awareness")
    "None" (hsec "metacognitive_awareness" (by decide))
  obtain ⟨paT, hpaT⟩ := mapJoinSection_ok "step" (step.field "practical_application")
    "None" (hsec "practical_application" (by decide))
  obtain ⟨cpT, hcpT⟩ := mapJoinSection_ok "link" (step.field "connection_to_principles")
    "None" (hsec "connection_to_principles" (by decide))
  obtain ⟨csT, hcsT⟩ := mapJoinSection_ok "exercise" (step.field "cognitive_stimulation")
    "None" (hsec "cognitive_stimulation" (by decide))
  unfold formatStep
  rw [exGet_eq_ok step _ hnn]
  simp only [ok_bind]
  rw [hrpT]
  simp only [ok_bind]
  rw [hmaT]
  simp only [ok_bind]
  rw [hpaT]
  simp only [ok_bind]
  rw [hcpT]
  simp only [ok_bind]
  rw [hcsT]
  simp only [ok_bind]
  exact ⟨_, rfl⟩

theorem buildResponses_ok :
    ∀ (steps : List Json) (acc : List (String × String)), steps.all safeStep = true →
      ∃ rs, buildResponses steps acc = Except.ok rs := by
  intro steps
  induction steps with
  | nil => intro acc _; exact ⟨acc, rfl⟩
  | cons x rest ih =>
    intro acc h
    simp only [List.all_cons, Bool.and_eq_true] at h
    obtain ⟨kv, hkv⟩ := formatStep_ok x h.1
    obtain ⟨rs, hrs⟩ := ih (insertResp acc kv.1 kv.2) h.2
    refine ⟨rs, ?_⟩
    simp only [buildResponses]
    rw [hkv]
    simp only [ok_bind]
    exact hrs

theorem structuredSynthesis_ok (syn : Json) (hnn : syn.isNull = false)
    (h : safeSynthesis syn = true) : ∃ s, structuredSynthesis syn = Except.ok s := by
  simp only [safeSynthesis, List.all_eq_true] at h
  obtain ⟨kiT, hki⟩ := bulletSection_ok (syn.field "key_insights")
    ["most_important_discovery", "unexamined_life_is_not_worth_living"]
    "No insight provided" "- No key insights provided\n" (h "key_insights" (by decide))
  obtain ⟨psT, hps⟩ := bulletSection_ok (syn.field "practical_steps")
    ["step_1", "step_2", "step_3", "step"]
    "No step provided" "- No practical steps provided\n" (h "practical_steps" (by decide))
  obtain ⟨meT, hme⟩ := metaEnhancementSection_ok (syn.field "metacognitive_enhancement")
    (h "metacognitive_enhancement" (by decide))
  obtain ⟨rqaT, hrqa⟩ := bulletSection_ok (syn.field "reasoning_quality_assessment")
    ["evaluation_of_reasoning_process"]
    "No assessment provided" "- No reasoning quality assessment provided\n"
    (h "reasoning_quality_assessment" (by decide))
  obtain ⟨cbT, hcb⟩ := bulletSection_ok (syn.field "cognitive_bridges")
    ["connection_between_different_thinking_modes"]
    "No bridge provided" "- No cognitive bridges provided\n" (h "cognitive_bridges" (by decide))
  obtain ⟨teT, hte⟩ := bulletSection_ok (syn.field "transformative_elements")
    ["aspect_that_could_change_user_perspective", "shift_in_focusing_on_what_you_can_control"]
    "No element provided" "- No transformative elements provided\n"
    (h "transformative_elements" (by decide))
  obtain ⟨asT, hat⟩ := bulletSection_ok (syn.field "application_scenarios")
    ["where_this_wisdom_applies"]
    "No scenario provided" "- No application scenarios provided\n"
    (h "application_scenarios" (by decide))
  obtain ⟨dqT, hdq⟩ := bulletSection_ok (syn.field "deepening_questions")
    ["questions_for_continued_exporation"]
    "No question provided" "- No deepening questions provided\n"
    (h "deepening_questions" (by decide))
  unfold structuredSynthesis
  rw [exGet_eq_ok syn _ hnn]
  simp only [ok_bind]
  rw [hki]
  simp only [ok_bind]
  rw [hps]
  simp only [ok_bind]
  rw [hme]
  simp only [ok_bind]
  rw [hrqa]
  simp only [ok_bind]
  rw [hcb]
  simp only [ok_bind]
  rw [hte]
  simp only [ok_bind]
  rw [hat]
  simp only [ok_bind]
  rw [hdq]
  simp only [ok_bind]
  exact ⟨_, rfl⟩

theorem synthesisTextOf_ok (j : Json) (hnn : j.isNull = false)
    (hs : safeSynthesis j = true) : ∃ t, synthesisTextOf (some j) = Except.ok t := by
  simp only [synthesisTextOf]
  by_cases hobj : j.isObjType = true
  · rw [if_pos hobj]
    obtain ⟨s, hs'⟩ := structuredSynthesis_ok j hnn hs
    rw [hs']
    exact ⟨_, rfl⟩
  · rw [if_neg hobj]
    exact ⟨_, rfl⟩

/-- C1 amended: the normalizer is total on every well-shaped body — any
non-null JSON value whose (truthy) `reasoning_chain`, when the
philosophical branch is taken, is an array of non-null entries with
no null elements inside the mapped sections, and whose synthesis has
no null elements inside its list sections, maps to exactly one of the
four variants with no exception.  Outside this set the classifier can
throw (a null body is the simplest case, see the counterexample); the
surrounding catch then converts the exception to the Error variant,
so the handler as a whole still yields exactly one variant. -/
theorem c1_amended_classifier_total_on_safe_shapes (data : Json)
    (h : safeShape data = true) : ∃ r, classify data = Except.ok r := by
  unfold safeShape at h
  obtain ⟨hnn', hrest⟩ := Eq.mp (Bool.and_eq_true _ _) h
  have hnn : data.isNull = false := Eq.mp (Bool.not_eq_true' _) hnn'
  unfold classify
  rw [exGet_eq_ok data _ hnn, exGet_eq_ok data _ hnn]
  simp only [ok_bind]
  by_cases hc : (truthyO (data.field "reasoning_chain") && truthyO (data.field "synthesis")) = true
  · rw [if_pos hc] at hrest ⊢
    obtain ⟨hsteps, hsyn⟩ := Eq.mp (Bool.and_eq_true _ _) hrest
    have hsynT : truthyO (data.field "synthesis") = true := (Eq.mp (Bool.and_eq_true _ _) hc).2
    cases hrc : data.field "reasoning_chain" with
    | none => rw [hrc] at hsteps; simp at hsteps
    | some rcj =>
      rw [hrc] at hsteps
      cases rcj with
      | arr steps =>
        obtain ⟨resp, hresp⟩ := buildResponses_ok steps [] hsteps
        cases hsy : data.field "synthesis" with
        | none => rw [hsy] at hsynT; simp [truthyO] at hsynT
        | some sj =>
          rw [hsy] at hsynT hsyn
          have hsjn : sj.isNull = false := truthy_not_null sj (by simpa [truthyO] using hsynT)
          obtain ⟨t, ht⟩ := synthesisTextOf_ok sj hsjn hsyn
          simp only [forEachArray, ok_bind]
          rw [hresp]
          simp only [ok_bind]
          rw [ht]
          simp only [ok_bind]
          exact ⟨_, rfl⟩
      | null => simp at hsteps
      | bool b => simp at hsteps
      | num n => simp at hsteps
      | str s => simp at hsteps
      | obj fs => simp at hsteps
  · rw [if_neg hc]
    cases hsy : data.field "synthesis" with
    | none => exact ⟨_, rfl⟩
    | some j =>
      cases j with
      | str s => exact ⟨_, rfl⟩
      | null => exact ⟨_, rfl⟩
      | bool b => exact ⟨_, rfl⟩
      | num n => exact ⟨_, rfl⟩
      | arr xs => exact ⟨_, rfl⟩
      | obj fs => exact ⟨_, rfl⟩

theorem c1_amended_classifier_total_on_safe_shapes_witness :
    safeShape (Json.obj
      [("reasoning_chain", Json.arr [Json.obj
          [("philosopher", Json.str "Socrates"),
           ("core_insight", Json.str "Question everything")]]),
       ("synthesis", Json.obj [("integrated_wisdom", Json.str "All is one")])]) = true ∧
    ∃ r, classify (Json.obj
      [("reasoning_chain", Json.arr [Json.obj
          [("philosopher", Json.str "Socrates"),
           ("core_insight", Json.str "Question everything")]]),
       ("synthesis", Json.obj [("integrated_wisdom", Json.str "All is one")])]) =
        Except.ok r :=
  ⟨by decide,
   c1_amended_classifier_total_on_safe_shapes (Json.obj
      [("reasoning_chain", Json.arr [Json.obj
          [("philosopher", Json.str "Socrates"),
           ("core_insight", Json.str "Question everything")]]),
       ("synthesis", Json.obj [("integrated_wisdom", Json.str "All is one")])]) (by decide)⟩
